import Mathlib

/-!
Shallow embedding of the authoritative game-state synchronization engine of
`src/app/page.tsx` (the Dot.io arena game): the server-side world model and
intent handlers (the `POST` switch and the `GET` snapshot of the API route),
the liveness reaper `cleanupPlayers`, and the client predictor's single-slot
pending-move queue.

Modelling conventions:
* JS numbers standing for positions are modelled as `ℚ`; timestamps
  (`Date.now()` values) as `Nat`.
* The JS `Map<string, Player>` is modelled as an association list
  `List (String × Player)` with `mapHas` / `mapGet` / `mapSet` / `mapDelete`
  mirroring `has` / `get` / `set` / `delete` (insertion order preserved,
  `set` updates in place on an existing key and appends on a fresh key).
* Calls to `Math.random()`-derived data (spawn position, color, fresh food)
  are passed in as explicit parameters of the operations.
-/

namespace SimpleIO

/-- A server-side player record (the route's `Player` interface). -/
structure Player where
  id : String
  username : String
  x : ℚ
  y : ℚ
  color : String
  score : Nat
  lastUpdate : Nat
deriving Repr, DecidableEq

/-- A food item (the route's `Food` interface). -/
structure Food where
  id : String
  x : ℚ
  y : ℚ
  color : String
deriving Repr, DecidableEq

/-- The shared world (the route's `GameState`): player map, food list,
and the `lastUpdate` synchronization counter. -/
structure GameState where
  players : List (String × Player)
  food : List Food
  lastUpdate : Nat
deriving Repr, DecidableEq

def CANVAS_WIDTH : ℚ := 800
def CANVAS_HEIGHT : ℚ := 600
def PLAYER_SIZE : ℚ := 20
def FOOD_SIZE : ℚ := 8
def FOOD_COUNT : Nat := 50
def PLAYER_TIMEOUT : Nat := 10000

/-- `Map.has` on the association-list model of `Map<string, Player>`. -/
def mapHas (m : List (String × Player)) (k : String) : Bool :=
  m.any (fun kv => kv.1 == k)

/-- `Map.get` (`undefined` becomes `none`). -/
def mapGet (m : List (String × Player)) (k : String) : Option Player :=
  (m.find? (fun kv => kv.1 == k)).map Prod.snd

/-- `Map.set`: updates in place when the key is present, appends otherwise. -/
def mapSet (m : List (String × Player)) (k : String) (v : Player) :
    List (String × Player) :=
  if mapHas m k then m.map (fun kv => if kv.1 == k then (k, v) else kv)
  else m ++ [(k, v)]

/-- `Map.delete`. -/
def mapDelete (m : List (String × Player)) (k : String) :
    List (String × Player) :=
  m.filter (fun kv => kv.1 != k)

/-- JS `Array.findIndex` (with `-1` modelled as `none`). -/
def findIndex {α : Type} (p : α → Bool) : List α → Option Nat
  | [] => none
  | a :: t => if p a then some 0 else (findIndex p t).map (fun i => i + 1)

/-- The result envelope of one request to the route (`NextResponse.json`
payloads of the `POST` switch). -/
inductive Resp where
  | joinOk (player : Player)
  | moveOk
  | collectOk (newFood : Food) (playerScore : Nat)
  | collectFail
  | heartbeatOk
  | leaveOk
  | unknownAction
deriving Repr, DecidableEq

/-- `initializeFood`: fills the food list (with the 50 random foods,
passed here as `freshFoods`) only when it is empty. -/
def initFood (s : GameState) (freshFoods : List Food) : GameState :=
  if s.food.length = 0 then { s with food := freshFoods } else s

/-- The `case "join"` branch of `POST`.  `rx`, `ry` are the two
`Math.random()` draws and `color` the randomly chosen palette color. -/
def joinOp (s : GameState) (pid uname : String) (rx ry : ℚ) (color : String)
    (freshFoods : List Food) (now : Nat) : GameState × Resp :=
  let s1 := initFood s freshFoods
  let newPlayer : Player :=
    { id := pid, username := uname,
      x := rx * (CANVAS_WIDTH - PLAYER_SIZE),
      y := ry * (CANVAS_HEIGHT - PLAYER_SIZE),
      color := color, score := 0, lastUpdate := now }
  ({ players := mapSet s1.players pid newPlayer, food := s1.food,
     lastUpdate := now },
   Resp.joinOk newPlayer)

/-- The `case "move"` branch of `POST`: clamps the submitted coordinates
into the field when the player is present, and always acks success. -/
def moveOp (s : GameState) (pid : String) (x y : ℚ) (now : Nat) :
    GameState × Resp :=
  match mapGet s.players pid with
  | none => (s, Resp.moveOk)
  | some p =>
    let newX := max 0 (min (CANVAS_WIDTH - PLAYER_SIZE) x)
    let newY := max 0 (min (CANVAS_HEIGHT - PLAYER_SIZE) y)
    ({ players :=
         mapSet s.players pid { p with x := newX, y := newY, lastUpdate := now },
       food := s.food, lastUpdate := now },
     Resp.moveOk)

/-- The `case "collectFood"` branch of `POST`: on a present player and a
found food id, splices the food out, bumps the score, pushes the fresh
food item (`generateFood()`, passed as `freshFood`) and bumps the counter;
otherwise acks `success:false` untouched. -/
def collectFoodOp (s : GameState) (pid fid : String) (freshFood : Food)
    (now : Nat) : GameState × Resp :=
  match mapGet s.players pid with
  | none => (s, Resp.collectFail)
  | some p =>
    match findIndex (fun f => f.id == fid) s.food with
    | none => (s, Resp.collectFail)
    | some i =>
      let p' : Player := { p with score := p.score + 1, lastUpdate := now }
      ({ players := mapSet s.players pid p',
         food := (s.food.eraseIdx i) ++ [freshFood],
         lastUpdate := now },
       Resp.collectOk freshFood p'.score)

/-- The `case "heartbeat"` branch of `POST`: refreshes only the player's
own activity timestamp, never the global counter. -/
def heartbeatOp (s : GameState) (pid : String) (now : Nat) :
    GameState × Resp :=
  match mapGet s.players pid with
  | none => (s, Resp.heartbeatOk)
  | some p =>
    ({ s with players := mapSet s.players pid { p with lastUpdate := now } },
     Resp.heartbeatOk)

/-- The `case "leave"` branch of `POST`. -/
def leaveOp (s : GameState) (pid : String) (now : Nat) : GameState × Resp :=
  if mapHas s.players pid then
    ({ players := mapDelete s.players pid, food := s.food, lastUpdate := now },
     Resp.leaveOk)
  else (s, Resp.leaveOk)

/-- Whether `cleanupPlayers` evicts a player at time `now`.  JS computes
`now - player.lastUpdate > PLAYER_TIMEOUT` over signed numbers; truncated
`Nat` subtraction agrees with it, since a negative difference also fails
the strict comparison. -/
def isStale (now : Nat) (p : Player) : Bool :=
  decide (PLAYER_TIMEOUT < now - p.lastUpdate)

/-- `cleanupPlayers`: collects the ids of every timed-out player, deletes
them, and bumps the counter once iff at least one was removed. -/
def cleanupPlayers (s : GameState) (now : Nat) : GameState :=
  let playersToRemove :=
    (s.players.filter (fun kv => isStale now kv.2)).map Prod.fst
  let players' := playersToRemove.foldl (fun m i => mapDelete m i) s.players
  if playersToRemove.length > 0 then
    { players := players', food := s.food, lastUpdate := now }
  else
    { players := players', food := s.food, lastUpdate := s.lastUpdate }

/-- A player projected to the public wire fields (the `playersData`
mapping of `GET`: the activity timestamp is dropped). -/
structure PublicPlayer where
  id : String
  username : String
  x : ℚ
  y : ℚ
  color : String
  score : Nat
deriving Repr, DecidableEq

def publicOf (p : Player) : PublicPlayer :=
  { id := p.id, username := p.username, x := p.x, y := p.y,
    color := p.color, score := p.score }

/-- The wire snapshot served by `GET`. -/
structure Snapshot where
  players : List PublicPlayer
  food : List Food
  lastUpdate : Nat
deriving Repr, DecidableEq

/-- The `GET` handler: runs the reaper, then serializes the world. -/
def GET (s : GameState) (now : Nat) : GameState × Snapshot :=
  let s' := cleanupPlayers s now
  (s', { players := s'.players.map (fun kv => publicOf kv.2),
         food := s'.food, lastUpdate := s'.lastUpdate })

/-- A client intent as posted to the route. -/
inductive Intent where
  | join (playerId username : String)
  | move (playerId : String) (x y : ℚ)
  | collectFood (playerId foodId : String)
  | heartbeat (playerId : String)
  | leave (playerId : String)
deriving Repr, DecidableEq

/-- The random data one `POST` dispatch may consume. -/
structure Draws where
  rx : ℚ
  ry : ℚ
  color : String
  initFoods : List Food
  freshFood : Food
deriving Repr

/-- The `POST` switch, dispatching to the per-case operations. -/
def POST (s : GameState) (i : Intent) (d : Draws) (now : Nat) :
    GameState × Resp :=
  match i with
  | .join pid uname => joinOp s pid uname d.rx d.ry d.color d.initFoods now
  | .move pid x y => moveOp s pid x y now
  | .collectFood pid fid => collectFoodOp s pid fid d.freshFood now
  | .heartbeat pid => heartbeatOp s pid now
  | .leave pid => leaveOp s pid now

/-- The client predictor's mutable refs relevant to move queueing:
`myPlayerId`, `lastPositionRef` and the single-slot `movementQueueRef`. -/
structure Predictor where
  myPlayerId : String
  lastPosition : ℚ × ℚ
  movementQueue : Option (ℚ × ℚ)
deriving Repr, DecidableEq

/-- The queueing step of `gameLoop` (lines 195-197): when the candidate
position differs from the last locally-known one, record it and overwrite
the pending move slot. -/
def queueMovement (c : Predictor) (pos : ℚ × ℚ) : Predictor :=
  if pos ≠ c.lastPosition then
    { c with lastPosition := pos, movementQueue := some pos }
  else c

/-- The send step of `updateGame` (lines 110-118): when a pending move is
queued and a player id is set, transmit one move intent and clear the
slot. -/
def sendPending (c : Predictor) : List Intent × Predictor :=
  match c.movementQueue with
  | some pos =>
    if c.myPlayerId ≠ "" then
      ([Intent.move c.myPlayerId pos.1 pos.2], { c with movementQueue := none })
    else ([], c)
  | none => ([], c)

/-- The `success` field of each response's JSON payload (the
`unknownAction` error response carries none; modelled as `false`). -/
def respSuccess : Resp → Bool
  | .collectFail => false
  | .unknownAction => false
  | _ => true

/-! ### Lemmas about the association-list model of `Map<string, Player>` -/

theorem mapHas_eq_isSome (m : List (String × Player)) (k : String) :
    mapHas m k = (mapGet m k).isSome := by
  induction m with
  | nil => rfl
  | cons a t ih =>
    cases ha : a.1 == k
    · simpa [mapHas, mapGet, List.any_cons, List.find?_cons, ha] using ih
    · simp [mapHas, mapGet, List.any_cons, List.find?_cons, ha]

theorem mapGet_map_upd (m : List (String × Player)) (k : String) (v : Player)
    (h : mapHas m k = true) :
    mapGet (m.map (fun kv => if kv.1 == k then (k, v) else kv)) k = some v := by
  induction m with
  | nil => simp [mapHas] at h
  | cons a t ih =>
    rw [List.map_cons]
    cases ha : a.1 == k
    · have h' : mapHas t k = true := by
        simpa [mapHas, List.any_cons, ha] using h
      rw [if_neg (by simp [ha])]
      unfold mapGet
      rw [List.find?_cons_of_neg _ (by simp [ha])]
      exact ih h'
    · rw [if_pos rfl]
      unfold mapGet
      rw [List.find?_cons_of_pos _ (by simp)]
      rfl

theorem mapGet_mapSet_self (m : List (String × Player)) (k : String) (v : Player)
    (h : mapHas m k = true) :
    mapGet (mapSet m k v) k = some v := by
  unfold mapSet
  rw [if_pos h]
  exact mapGet_map_upd m k v h

theorem filter_ne_map_upd (m : List (String × Player)) (k : String) (v : Player) :
    (m.map (fun kv => if kv.1 == k then (k, v) else kv)).filter
        (fun kv => kv.1 != k)
      = m.filter (fun kv => kv.1 != k) := by
  induction m with
  | nil => rfl
  | cons a t ih =>
    rw [List.map_cons]
    cases ha : a.1 == k
    · rw [if_neg (by simp [ha])]
      simpa [List.filter_cons, bne, ha] using ih
    · rw [if_pos rfl]
      simpa [List.filter_cons, bne, ha] using ih

/-- `Map.set` leaves every entry under a different key untouched. -/
theorem mapSet_filter_ne (m : List (String × Player)) (k : String) (v : Player) :
    (mapSet m k v).filter (fun kv => kv.1 != k)
      = m.filter (fun kv => kv.1 != k) := by
  unfold mapSet
  split
  · exact filter_ne_map_upd m k v
  · simp [List.filter_append, List.filter_cons, bne]

/-- Deleting a batch of keys one by one keeps exactly the entries whose
key is not in the batch. -/
theorem foldl_mapDelete (ids : List String) (m : List (String × Player)) :
    ids.foldl (fun acc i => mapDelete acc i) m
      = m.filter (fun kv => !(ids.any (fun i => kv.1 == i))) := by
  induction ids generalizing m with
  | nil => simp
  | cons a as ih =>
    rw [List.foldl_cons, ih]
    unfold mapDelete
    rw [List.filter_filter]
    refine List.filter_congr ?_
    intro kv _
    cases h1 : kv.1 == a <;> cases h2 : as.any (fun i => kv.1 == i) <;>
      simp [List.any_cons, bne, h1, h2]

/-! ### Lemmas about `findIndex` -/

theorem findIndex_some {α : Type} (p : α → Bool) (l : List α) (i : Nat)
    (h : findIndex p l = some i) : ∃ a, l[i]? = some a ∧ p a = true := by
  induction l generalizing i with
  | nil => simp [findIndex] at h
  | cons a t ih =>
    cases hp : p a
    · simp only [findIndex, hp, if_neg Bool.false_ne_true] at h
      obtain ⟨j, hj, rfl⟩ := Option.map_eq_some'.1 h
      obtain ⟨b, hb, hpb⟩ := ih j hj
      exact ⟨b, by simpa using hb, hpb⟩
    · simp only [findIndex, hp, if_pos rfl] at h
      cases h
      exact ⟨a, by simp, hp⟩

theorem findIndex_lt_length {α : Type} (p : α → Bool) (l : List α) (i : Nat)
    (h : findIndex p l = some i) : i < l.length := by
  obtain ⟨a, ha, _⟩ := findIndex_some p l i h
  exact (List.getElem?_eq_some.1 ha).1

/-! ### Lemmas about the reaper `cleanupPlayers` -/

theorem cleanupPlayers_food (s : GameState) (now : Nat) :
    (cleanupPlayers s now).food = s.food := by
  simp only [cleanupPlayers]
  split <;> rfl

/-- With no duplicate keys in the player map (which a JS `Map` guarantees),
a reaping pass keeps exactly the entries that are not timed out. -/
theorem cleanupPlayers_players_eq (s : GameState) (now : Nat)
    (hnd : (s.players.map Prod.fst).Nodup) :
    (cleanupPlayers s now).players
      = s.players.filter (fun kv => !(isStale now kv.2)) := by
  have key : ∀ kv ∈ s.players,
      (!(((s.players.filter (fun kv => isStale now kv.2)).map Prod.fst).any
          (fun i => kv.1 == i)))
        = !(isStale now kv.2) := by
    intro kv hkv
    cases hst : isStale now kv.2
    · suffices hsuf :
          (((s.players.filter (fun kv => isStale now kv.2)).map Prod.fst).any
            (fun i => kv.1 == i)) = false by rw [hsuf]
      rw [List.any_eq_false]
      intro i hi hbeq
      obtain ⟨kv', hkv', hfst⟩ := List.mem_map.1 hi
      obtain ⟨hmem, hstale⟩ := List.mem_filter.1 hkv'
      have heq : kv.1 = i := beq_iff_eq.1 hbeq
      have hkk : kv' = kv :=
        List.inj_on_of_nodup_map hnd hmem hkv (by rw [hfst, ← heq])
      rw [hkk] at hstale
      rw [hst] at hstale
      exact Bool.false_ne_true hstale
    · suffices hsuf :
          (((s.players.filter (fun kv => isStale now kv.2)).map Prod.fst).any
            (fun i => kv.1 == i)) = true by rw [hsuf]
      rw [List.any_eq_true]
      exact ⟨kv.1, List.mem_map_of_mem _ (List.mem_filter.2 ⟨hkv, hst⟩), by simp⟩
  have hfold : ((s.players.filter (fun kv => isStale now kv.2)).map Prod.fst).foldl
      (fun m i => mapDelete m i) s.players
      = s.players.filter (fun kv => !(isStale now kv.2)) := by
    rw [foldl_mapDelete]
    exact List.filter_congr key
  simp only [cleanupPlayers]
  split <;> simp [hfold]

/-- The counter is set (once) to `now` as soon as at least one player is
timed out. -/
theorem cleanupPlayers_lastUpdate_pos (s : GameState) (now : Nat)
    (h : ∃ kv ∈ s.players, isStale now kv.2 = true) :
    (cleanupPlayers s now).lastUpdate = now := by
  obtain ⟨kv, hm, hs⟩ := h
  have hmem : kv.1 ∈ (s.players.filter (fun kv => isStale now kv.2)).map Prod.fst :=
    List.mem_map_of_mem _ (List.mem_filter.2 ⟨hm, hs⟩)
  have hlen : 0 < ((s.players.filter (fun kv => isStale now kv.2)).map Prod.fst).length :=
    List.length_pos.2 (List.ne_nil_of_mem hmem)
  simp only [cleanupPlayers]
  rw [if_pos hlen]

/-- A reaping pass over a world with no timed-out player is the identity. -/
theorem cleanupPlayers_of_fresh (s : GameState) (now : Nat)
    (h : ∀ kv ∈ s.players, isStale now kv.2 = false) :
    cleanupPlayers s now = s := by
  have hf : s.players.filter (fun kv => isStale now kv.2) = [] :=
    List.filter_eq_nil_iff.2 (fun a ha => by simp [h a ha])
  simp [cleanupPlayers, hf]

/-! ### Concrete fixtures used by witnesses and counterexamples -/

def wP : Player :=
  { id := "p", username := "u", x := 5, y := 6, color := "red",
    score := 5, lastUpdate := 100 }

def wQ : Player :=
  { id := "q", username := "v", x := 7, y := 8, color := "blue",
    score := 2, lastUpdate := 19000 }

def wF : Food := { id := "f", x := 1, y := 2, color := "green" }

def wFresh : Food := { id := "f2", x := 3, y := 4, color := "orange" }

def wS : GameState := { players := [("p", wP)], food := [wF], lastUpdate := 100 }

def w5S : GameState :=
  { players := [("p", wP), ("q", wQ)], food := [wF], lastUpdate := 19500 }

def c6P : Player :=
  { id := "p", username := "u", x := 1, y := 2, color := "red",
    score := 0, lastUpdate := 0 }

def c6S : GameState := { players := [("p", c6P)], food := [], lastUpdate := 0 }

def wC : Predictor :=
  { myPlayerId := "me", lastPosition := (0, 0), movementQueue := none }

/-! ### The claims -/

/-- C1 (counterexample): the `lastUpdate` counter is NOT strictly greater
after every state-changing operation.  The handlers assign
`lastUpdate := Date.now()`, so a join processed in the same millisecond as
the previous update (`now = 100 = lastUpdate`) leaves the counter equal,
not strictly greater. -/
theorem C1_counterexample :
    ¬ (wS.lastUpdate < (joinOp wS "q" "u2" 0 0 "red" [] 100).1.lastUpdate) := by
  decide

/-- C1 (amended): provided the wall clock has advanced past the stored
counter (`s.lastUpdate < now`), every state-changing operation — join,
move on a present player, a collectFood that succeeds, leave of a present
player, and a reaping pass that removes at least one player — leaves the
counter strictly greater than before, while a heartbeat never changes
it. -/
theorem C1_thm (s : GameState) (now : Nat) (pid uname fid : String)
    (rx ry x y : ℚ) (color : String) (freshFoods : List Food) (freshFood : Food)
    (h : s.lastUpdate < now) :
    s.lastUpdate < (joinOp s pid uname rx ry color freshFoods now).1.lastUpdate ∧
    (mapHas s.players pid = true →
      s.lastUpdate < (moveOp s pid x y now).1.lastUpdate) ∧
    ((collectFoodOp s pid fid freshFood now).2 ≠ Resp.collectFail →
      s.lastUpdate < (collectFoodOp s pid fid freshFood now).1.lastUpdate) ∧
    (mapHas s.players pid = true →
      s.lastUpdate < (leaveOp s pid now).1.lastUpdate) ∧
    ((∃ kv ∈ s.players, isStale now kv.2 = true) →
      s.lastUpdate < (cleanupPlayers s now).lastUpdate) ∧
    (heartbeatOp s pid now).1.lastUpdate = s.lastUpdate := by
  refine ⟨?_, ?_, ?_, ?_, ?_, ?_⟩
  · simpa [joinOp] using h
  · intro hp
    rw [mapHas_eq_isSome] at hp
    cases hg : mapGet s.players pid with
    | none => rw [hg] at hp; simp at hp
    | some p => simpa [moveOp, hg] using h
  · intro hc
    cases hg : mapGet s.players pid with
    | none => simp [collectFoodOp, hg] at hc
    | some p =>
      cases hf : findIndex (fun f => f.id == fid) s.food with
      | none => simp [collectFoodOp, hg, hf] at hc
      | some i => simpa [collectFoodOp, hg, hf] using h
  · intro hp
    simpa [leaveOp, hp] using h
  · intro hex
    rw [cleanupPlayers_lastUpdate_pos s now hex]
    exact h
  · cases hg : mapGet s.players pid <;> simp [heartbeatOp, hg]

theorem C1_witness :
    wS.lastUpdate < (joinOp wS "p" "u" 0 0 "red" [] 20000).1.lastUpdate ∧
    wS.lastUpdate < (moveOp wS "p" 3 4 20000).1.lastUpdate ∧
    wS.lastUpdate < (collectFoodOp wS "p" "f" wFresh 20000).1.lastUpdate ∧
    wS.lastUpdate < (leaveOp wS "p" 20000).1.lastUpdate ∧
    wS.lastUpdate < (cleanupPlayers wS 20000).lastUpdate ∧
    (heartbeatOp wS "p" 20000).1.lastUpdate = wS.lastUpdate := by
  have h := C1_thm wS 20000 "p" "u" "f" 0 0 3 4 "red" [] wFresh (by decide)
  exact ⟨h.1, h.2.1 (by decide), h.2.2.1 (by decide), h.2.2.2.1 (by decide),
    h.2.2.2.2.1 (by decide), h.2.2.2.2.2⟩

/-- C2: a move intent for a present player always acks success, and the
stored position is the input clamped into
`[0, CANVAS_WIDTH - PLAYER_SIZE] × [0, CANVAS_HEIGHT - PLAYER_SIZE]`,
whatever (also negative or far out-of-range) `x` and `y` were
submitted. -/
theorem C2_thm (s : GameState) (pid : String) (x y : ℚ) (now : Nat) (p : Player)
    (h : mapGet s.players pid = some p) :
    (moveOp s pid x y now).2 = Resp.moveOk ∧
    mapGet (moveOp s pid x y now).1.players pid =
      some { p with x := max 0 (min (CANVAS_WIDTH - PLAYER_SIZE) x),
                    y := max 0 (min (CANVAS_HEIGHT - PLAYER_SIZE) y),
                    lastUpdate := now } ∧
    0 ≤ max 0 (min (CANVAS_WIDTH - PLAYER_SIZE) x) ∧
    max 0 (min (CANVAS_WIDTH - PLAYER_SIZE) x) ≤ CANVAS_WIDTH - PLAYER_SIZE ∧
    0 ≤ max 0 (min (CANVAS_HEIGHT - PLAYER_SIZE) y) ∧
    max 0 (min (CANVAS_HEIGHT - PLAYER_SIZE) y) ≤ CANVAS_HEIGHT - PLAYER_SIZE := by
  have hh : mapHas s.players pid = true := by rw [mapHas_eq_isSome, h]; rfl
  refine ⟨by simp [moveOp, h], ?_, le_max_left 0 _, ?_, le_max_left 0 _, ?_⟩
  · simp only [moveOp, h]
    exact mapGet_mapSet_self _ _ _ hh
  · exact max_le (by norm_num [CANVAS_WIDTH, PLAYER_SIZE]) (min_le_left _ _)
  · exact max_le (by norm_num [CANVAS_HEIGHT, PLAYER_SIZE]) (min_le_left _ _)

theorem C2_witness :
    (moveOp wS "p" 0 (-50) 200).2 = Resp.moveOk ∧
    mapGet (moveOp wS "p" 0 (-50) 200).1.players "p" =
      some { wP with x := max 0 (min (CANVAS_WIDTH - PLAYER_SIZE) 0),
                     y := max 0 (min (CANVAS_HEIGHT - PLAYER_SIZE) (-50)),
                     lastUpdate := 200 } ∧
    0 ≤ max 0 (min (CANVAS_WIDTH - PLAYER_SIZE) 0) ∧
    max 0 (min (CANVAS_WIDTH - PLAYER_SIZE) 0) ≤ CANVAS_WIDTH - PLAYER_SIZE ∧
    0 ≤ max 0 (min (CANVAS_HEIGHT - PLAYER_SIZE) (-50)) ∧
    max 0 (min (CANVAS_HEIGHT - PLAYER_SIZE) (-50)) ≤ CANVAS_HEIGHT - PLAYER_SIZE :=
  C2_thm wS "p" 0 (-50) 200 wP (by decide)

/-- C3: a collectFood intent for a present player and a food id found in
the food list returns success with the fresh food and the incremented
score, the named item (the one at the found index) is removed, exactly
one fresh item is appended, the food count is preserved, and the acting
player's score grows by exactly 1. -/
theorem C3_thm (s : GameState) (pid fid : String) (freshFood : Food) (now : Nat)
    (p : Player) (i : Nat)
    (hp : mapGet s.players pid = some p)
    (hf : findIndex (fun f => f.id == fid) s.food = some i) :
    (collectFoodOp s pid fid freshFood now).2
      = Resp.collectOk freshFood (p.score + 1) ∧
    (s.food.map Food.id)[i]? = some fid ∧
    (collectFoodOp s pid fid freshFood now).1.food
      = s.food.eraseIdx i ++ [freshFood] ∧
    (collectFoodOp s pid fid freshFood now).1.food.length = s.food.length ∧
    mapGet (collectFoodOp s pid fid freshFood now).1.players pid =
      some { p with score := p.score + 1, lastUpdate := now } := by
  have hh : mapHas s.players pid = true := by rw [mapHas_eq_isSome, hp]; rfl
  have hi : i < s.food.length := findIndex_lt_length _ _ _ hf
  obtain ⟨a, ha, hpa⟩ := findIndex_some _ _ _ hf
  refine ⟨by simp [collectFoodOp, hp, hf], ?_,
    by simp [collectFoodOp, hp, hf], ?_, ?_⟩
  · rw [List.getElem?_map, ha, Option.map_some']
    exact congrArg some (beq_iff_eq.1 hpa)
  · simp only [collectFoodOp, hp, hf]
    simp [List.length_eraseIdx, hi]
    omega
  · simp only [collectFoodOp, hp, hf]
    exact mapGet_mapSet_self _ _ _ hh

theorem C3_witness :
    (collectFoodOp wS "p" "f" wFresh 200).2
      = Resp.collectOk wFresh (wP.score + 1) ∧
    (wS.food.map Food.id)[0]? = some "f" ∧
    (collectFoodOp wS "p" "f" wFresh 200).1.food
      = wS.food.eraseIdx 0 ++ [wFresh] ∧
    (collectFoodOp wS "p" "f" wFresh 200).1.food.length = wS.food.length ∧
    mapGet (collectFoodOp wS "p" "f" wFresh 200).1.players "p" =
      some { wP with score := wP.score + 1, lastUpdate := 200 } :=
  C3_thm wS "p" "f" wFresh 200 wP 0 (by decide) (by decide)

/-- C4: a collectFood intent for a present player naming a food id absent
from the food list acks `success:false` and leaves the whole world —
players, scores, food list and counter — unchanged. -/
theorem C4_thm (s : GameState) (pid fid : String) (freshFood : Food) (now : Nat)
    (hp : mapHas s.players pid = true)
    (hf : findIndex (fun f => f.id == fid) s.food = none) :
    collectFoodOp s pid fid freshFood now = (s, Resp.collectFail) := by
  rw [mapHas_eq_isSome] at hp
  cases hg : mapGet s.players pid with
  | none => rw [hg] at hp; simp at hp
  | some p => simp [collectFoodOp, hg, hf]

theorem C4_witness :
    collectFoodOp wS "p" "nope" wFresh 200 = (wS, Resp.collectFail) :=
  C4_thm wS "p" "nope" wFresh 200 (by decide) (by decide)

/-- C5: with no duplicate keys in the player map (a `Map` invariant), a
reaping pass at time `now` keeps exactly the players whose last-activity
timestamp is within the 10,000 ms timeout and evicts exactly the ones
older than it; the food list is untouched; the counter is set once (to
`now`, however many players were removed) when at least one player was
removed, and is unchanged when none was. -/
theorem C5_thm (s : GameState) (now : Nat)
    (hnd : (s.players.map Prod.fst).Nodup) :
    (cleanupPlayers s now).players
      = s.players.filter (fun kv => !(isStale now kv.2)) ∧
    (cleanupPlayers s now).food = s.food ∧
    ((∃ kv ∈ s.players, isStale now kv.2 = true) →
      (cleanupPlayers s now).lastUpdate = now) ∧
    ((∀ kv ∈ s.players, isStale now kv.2 = false) →
      (cleanupPlayers s now).lastUpdate = s.lastUpdate) := by
  refine ⟨cleanupPlayers_players_eq s now hnd, cleanupPlayers_food s now,
    cleanupPlayers_lastUpdate_pos s now, ?_⟩
  intro hall
  rw [cleanupPlayers_of_fresh s now hall]

theorem C5_witness :
    (cleanupPlayers w5S 20000).players
      = w5S.players.filter (fun kv => !(isStale 20000 kv.2)) ∧
    (cleanupPlayers w5S 20000).food = w5S.food ∧
    (cleanupPlayers w5S 20000).lastUpdate = 20000 := by
  have h := C5_thm w5S 20000 (by decide)
  exact ⟨h.1, h.2.1, h.2.2.1 (by decide)⟩

/-- C6 (counterexample): the `GET` handler is NOT a pure read: it runs
`cleanupPlayers()` first, so with a timed-out player present it mutates
the world (here it evicts the player and bumps the counter). -/
theorem C6_counterexample : (GET c6S 20000).1 ≠ c6S := by decide

/-- C6 (amended): `GET` first runs the reaping pass; the serialization
itself is pure.  Whenever no player is past the timeout, `GET` leaves the
world state entirely unchanged and returns the players projected to the
public fields, the food list and the counter. -/
theorem C6_thm (s : GameState) (now : Nat)
    (h : ∀ kv ∈ s.players, isStale now kv.2 = false) :
    GET s now =
      (s, { players := s.players.map (fun kv => publicOf kv.2),
            food := s.food, lastUpdate := s.lastUpdate }) := by
  simp [GET, cleanupPlayers_of_fresh s now h]

theorem C6_witness :
    GET wS 200 =
      (wS, { players := wS.players.map (fun kv => publicOf kv.2),
             food := wS.food, lastUpdate := wS.lastUpdate }) :=
  C6_thm wS 200 (by decide)

/-- C7 (counterexample): a join whose player id is already present does
NOT fail with a DuplicateId error — the handler has no such branch.  It
acks success and silently overwrites the existing record: the stored
score drops from 5 to the fresh player's 0. -/
theorem C7_counterexample :
    respSuccess (joinOp wS "p" "u2" 0 0 "red" [] 200).2 = true ∧
    (joinOp wS "p" "u2" 0 0 "red" [] 200).1.players.map (fun kv => kv.2.score)
      = [0] ∧
    wS.players.map (fun kv => kv.2.score) = [5] := by
  decide

/-- C7 (amended): a join whose player id is already present succeeds and
replaces the existing record in place with a fresh player (given
username, randomly drawn position and color, score 0, activity stamp
`now`). -/
theorem C7_thm (s : GameState) (pid uname : String) (rx ry : ℚ) (color : String)
    (freshFoods : List Food) (now : Nat) (p : Player)
    (h : mapGet s.players pid = some p) :
    (joinOp s pid uname rx ry color freshFoods now).2 =
      Resp.joinOk
        { id := pid, username := uname,
          x := rx * (CANVAS_WIDTH - PLAYER_SIZE),
          y := ry * (CANVAS_HEIGHT - PLAYER_SIZE),
          color := color, score := 0, lastUpdate := now } ∧
    mapGet (joinOp s pid uname rx ry color freshFoods now).1.players pid =
      some
        { id := pid, username := uname,
          x := rx * (CANVAS_WIDTH - PLAYER_SIZE),
          y := ry * (CANVAS_HEIGHT - PLAYER_SIZE),
          color := color, score := 0, lastUpdate := now } := by
  have hh : mapHas s.players pid = true := by rw [mapHas_eq_isSome, h]; rfl
  have hps : (initFood s freshFoods).players = s.players := by
    unfold initFood; split <;> rfl
  constructor
  · rfl
  · simp only [joinOp, hps]
    exact mapGet_mapSet_self _ _ _ hh

theorem C7_witness :
    (joinOp wS "p" "u2" 3 4 "blue" [] 200).2 =
      Resp.joinOk
        { id := "p", username := "u2", x := 3 * (CANVAS_WIDTH - PLAYER_SIZE),
          y := 4 * (CANVAS_HEIGHT - PLAYER_SIZE), color := "blue",
          score := 0, lastUpdate := 200 } ∧
    mapGet (joinOp wS "p" "u2" 3 4 "blue" [] 200).1.players "p" =
      some
        { id := "p", username := "u2", x := 3 * (CANVAS_WIDTH - PLAYER_SIZE),
          y := 4 * (CANVAS_HEIGHT - PLAYER_SIZE), color := "blue",
          score := 0, lastUpdate := 200 } :=
  C7_thm wS "p" "u2" 3 4 "blue" [] 200 wP (by decide)

/-- C8: a heartbeat for a present player acks success and updates only
that player's activity timestamp: the player's position, color, name and
score are kept (`{ p with lastUpdate := now }`), every entry under a
different key is untouched, and the food list and the global counter are
unchanged. -/
theorem C8_thm (s : GameState) (pid : String) (now : Nat) (p : Player)
    (h : mapGet s.players pid = some p) :
    (heartbeatOp s pid now).2 = Resp.heartbeatOk ∧
    mapGet (heartbeatOp s pid now).1.players pid =
      some { p with lastUpdate := now } ∧
    (heartbeatOp s pid now).1.players.filter (fun kv => kv.1 != pid)
      = s.players.filter (fun kv => kv.1 != pid) ∧
    (heartbeatOp s pid now).1.food = s.food ∧
    (heartbeatOp s pid now).1.lastUpdate = s.lastUpdate := by
  have hh : mapHas s.players pid = true := by rw [mapHas_eq_isSome, h]; rfl
  refine ⟨by simp [heartbeatOp, h], ?_, ?_,
    by simp [heartbeatOp, h], by simp [heartbeatOp, h]⟩
  · simp only [heartbeatOp, h]
    exact mapGet_mapSet_self _ _ _ hh
  · simp only [heartbeatOp, h]
    exact mapSet_filter_ne _ _ _

theorem C8_witness :
    (heartbeatOp wS "p" 200).2 = Resp.heartbeatOk ∧
    mapGet (heartbeatOp wS "p" 200).1.players "p" =
      some { wP with lastUpdate := 200 } ∧
    (heartbeatOp wS "p" 200).1.players.filter (fun kv => kv.1 != "p")
      = wS.players.filter (fun kv => kv.1 != "p") ∧
    (heartbeatOp wS "p" 200).1.food = wS.food ∧
    (heartbeatOp wS "p" 200).1.lastUpdate = wS.lastUpdate :=
  C8_thm wS "p" 200 wP (by decide)

/-- C9: the predictor's pending-move slot holds at most one record and a
newly queued move overwrites the not-yet-sent one: after queueing `(5,5)`
and then `(8,5)` between two network ticks, the slot holds only `(8,5)`,
the next tick transmits exactly one move intent — `(8,5)` — and the tick
after transmits nothing, so `(5,5)` is never sent. -/
theorem C9_thm (c : Predictor) (hid : c.myPlayerId ≠ "")
    (h5 : c.lastPosition ≠ ((5 : ℚ), (5 : ℚ))) :
    (queueMovement (queueMovement c (5, 5)) (8, 5)).movementQueue
      = some (8, 5) ∧
    (sendPending (queueMovement (queueMovement c (5, 5)) (8, 5))).1
      = [Intent.move c.myPlayerId 8 5] ∧
    (sendPending ((sendPending (queueMovement (queueMovement c (5, 5)) (8, 5))).2)).1
      = [] ∧
    ∀ pos : ℚ × ℚ, ((queueMovement c pos).movementQueue).toList.length ≤ 1 := by
  have h1 : queueMovement c (5, 5)
      = { c with lastPosition := (5, 5), movementQueue := some (5, 5) } := by
    unfold queueMovement
    rw [if_pos (Ne.symm h5)]
  have h2 : queueMovement (queueMovement c (5, 5)) (8, 5)
      = { c with lastPosition := (8, 5), movementQueue := some (8, 5) } := by
    rw [h1]
    unfold queueMovement
    rw [if_pos (by norm_num [Prod.ext_iff])]
  have h3 : sendPending
        { c with lastPosition := ((8 : ℚ), (5 : ℚ)), movementQueue := some (8, 5) }
      = ([Intent.move c.myPlayerId 8 5],
         { c with lastPosition := (8, 5), movementQueue := none }) := by
    simp [sendPending, hid]
  refine ⟨by rw [h2], by rw [h2, h3], by rw [h2, h3]; simp [sendPending], ?_⟩
  intro pos
  unfold queueMovement
  split
  · simp
  · cases c.movementQueue <;> simp

theorem C9_witness :
    (queueMovement (queueMovement wC (5, 5)) (8, 5)).movementQueue
      = some (8, 5) ∧
    (sendPending (queueMovement (queueMovement wC (5, 5)) (8, 5))).1
      = [Intent.move wC.myPlayerId 8 5] ∧
    (sendPending ((sendPending (queueMovement (queueMovement wC (5, 5)) (8, 5))).2)).1
      = [] ∧
    ((queueMovement wC (7, 7)).movementQueue).toList.length ≤ 1 := by
  have h := C9_thm wC (by decide) (by decide)
  exact ⟨h.1, h.2.1, h.2.2.1, h.2.2.2 (7, 7)⟩

/-- C10: a collectFood intent whose player id is not present acks
`success:false` and leaves the whole world unchanged, even when the named
food id does exist in the food list. -/
theorem C10_thm (s : GameState) (pid fid : String) (freshFood : Food) (now : Nat)
    (hp : mapHas s.players pid = false) :
    collectFoodOp s pid fid freshFood now = (s, Resp.collectFail) := by
  rw [mapHas_eq_isSome] at hp
  cases hg : mapGet s.players pid with
  | none => simp [collectFoodOp, hg]
  | some p => rw [hg] at hp; simp at hp

theorem C10_witness :
    collectFoodOp wS "ghost" "f" wFresh 200 = (wS, Resp.collectFail) :=
  C10_thm wS "ghost" "f" wFresh 200 (by decide)

end SimpleIO
